import Mathlib

/-!
Shallow embedding of `src/components/home/index.tsx` (the `MapComponent`
React component of the ottermap repository) together with the document
shell.  The component wires an OpenLayers map: a tile basemap layer, a
vector layer over a single persistent `VectorSource`, a `Draw`
interaction whose geometry kind follows the `drawType` state, a
"measure" button handler, and a measurement text.

External collaborators (`ol/sphere.getArea`, `ol/sphere.getLength`,
`millify`) are opaque third-party functions; the development is
parameterised over them, exactly as the component consumes them as
black boxes.
-/

/-- The allowed kinds of geometries, from
`type GeometryType = "Point" | "LineString" | "Polygon" | "None"`. -/
inductive GeometryType
  | Point
  | LineString
  | Polygon
  | None
deriving DecidableEq, Repr

/-- A drawn geometry, as produced by the `Draw` interaction: its kind is
the kind the interaction was configured with.  The `Nat` payload stands
for the coordinate data the user placed (opaque to the component, which
only ever passes the geometry whole to `getArea` / `getLength`). -/
inductive Geom
  | point (d : Nat)
  | lineString (d : Nat)
  | polygon (d : Nat)
deriving DecidableEq, Repr

/-- A layer of the map, from the mount effect: the OSM tile raster layer
and the vector layer bound to the component's single drawing source
(whose contents are the `features` field of `ComponentState`). -/
inductive Layer
  | tile
  | vector
deriving DecidableEq, Repr

/-- The map's view, from `new View({ center: [-11000000, 4600000], zoom: 4 })`. -/
structure MapView where
  center : Int × Int
  zoom : Nat
deriving DecidableEq, Repr

/-- The state of one `MapComponent` instance, together with the pieces of
the OpenLayers map it owns.

* `mounted` — whether the component is currently mounted;
* `mapCreated` — whether the `Map` object exists (`map` state is set);
* `view`, `layers` — the map's view and layer list from the mount effect;
* `interactions` — the geometry kinds of the `Draw` interactions
  currently added to the map (`map.addInteraction` appends,
  `map.removeInteraction` erases);
* `currentDraw` — the interaction the pending effect cleanup closure
  would remove (the handle captured by the draw-interaction effect);
* `features` — the contents of the single `VectorSource` (`source`);
* `drawType` — the `drawType` state, initially `"LineString"`;
* `lastFeature` — the `lastFeature` state, set by the `drawend` listener;
* `measurement` — the `measurement` state;
* `detachCount` — how many times `setTarget(undefined)` has been called
  (the mount effect's cleanup). -/
structure ComponentState where
  mounted : Bool
  mapCreated : Bool
  view : Option MapView
  layers : List Layer
  interactions : List GeometryType
  currentDraw : Option GeometryType
  features : List Geom
  drawType : GeometryType
  lastFeature : Option Geom
  measurement : String
  detachCount : Nat
deriving DecidableEq, Repr

/-- The initial React state, before mount: the `useState` initialisers
(`drawType = "LineString"`, `lastFeature = null`, `measurement = ""`,
empty source, no map). -/
def initState : ComponentState :=
  { mounted := false
    mapCreated := false
    view := none
    layers := []
    interactions := []
    currentDraw := none
    features := []
    drawType := GeometryType.LineString
    lastFeature := none
    measurement := ""
    detachCount := 0 }

/-- `handleMeasureClick`, parameterised by the opaque `ol/sphere` helpers
and `millify`:

```
if (!lastFeature) return;
const geometry = lastFeature.getGeometry();
let output = "";
if (geometry instanceof Polygon) {
  const area = getArea(geometry);
  output = `Area: ${millify(area)} square meters`;
} else if (geometry instanceof LineString) {
  const length = getLength(geometry);
  output = `Length: ${millify(length)} meters`;
}
setMeasurement(output);
```
-/
def handleMeasureClick (getArea getLength : Geom → Nat) (millify : Nat → String)
    (s : ComponentState) : ComponentState :=
  match s.lastFeature with
  | none => s
  | some f =>
    let output : String :=
      match f with
      | Geom.polygon d =>
          "Area: " ++ millify (getArea (Geom.polygon d)) ++ " square meters"
      | Geom.lineString d =>
          "Length: " ++ millify (getLength (Geom.lineString d)) ++ " meters"
      | Geom.point _ => ""
    { s with measurement := output }

/-- The cleanup of the draw-interaction effect:
`return () => { map.removeInteraction(drawInteraction) }` — removes the
interaction captured by the previous effect run, if any. -/
def detachDraw (s : ComponentState) : ComponentState :=
  match s.currentDraw with
  | none => s
  | some t => { s with interactions := s.interactions.erase t, currentDraw := none }

/-- The body of the draw-interaction effect:
`if (!map || drawType === "None") return;` then
`map.addInteraction(new Draw({ source, type: drawType }))`. -/
def attachDraw (s : ComponentState) : ComponentState :=
  if s.mapCreated = true ∧ s.drawType ≠ GeometryType.None then
    { s with interactions := s.interactions ++ [s.drawType]
             currentDraw := some s.drawType }
  else s

/-- One settled run of the draw-interaction effect (React runs the
previous run's cleanup, then the new body). -/
def runDrawEffect (s : ComponentState) : ComponentState :=
  attachDraw (detachDraw s)

/-- The mount effect: create the tile and vector layers and the map with
its fixed view, store the map in state (after which the draw-interaction
effect re-runs with the map present). -/
def runMountEffect (s : ComponentState) : ComponentState :=
  runDrawEffect
    { s with mapCreated := true
             view := some { center := (-11000000, 4600000), zoom := 4 }
             layers := [Layer.tile, Layer.vector] }

/-- The geometry a `Draw` interaction of kind `t` yields on `drawend`
(`"None"` is never a valid `Draw` type, so it yields nothing). -/
def geomOfType (t : GeometryType) (d : Nat) : Option Geom :=
  match t with
  | GeometryType.Point => some (Geom.point d)
  | GeometryType.LineString => some (Geom.lineString d)
  | GeometryType.Polygon => some (Geom.polygon d)
  | GeometryType.None => none

/-- The discrete UI events the component reacts to. -/
inductive Event
  | mount
  | selectMode (m : GeometryType)
  | drawEnd (d : Nat)
  | measureClick
  | unmount
deriving DecidableEq, Repr

/-- One step of the component's event loop.

* `mount` (only when unmounted): render with the initial state already in
  place, then run the effects.
* `selectMode m`: the select's `onChange` calls `setDrawType`, after
  which the draw-interaction effect re-runs.
* `drawEnd d`: fires on the currently attached `Draw` interaction, if
  any; the interaction writes the completed geometry into the shared
  source and the `drawend` listener calls `setLastFeature`.
* `measureClick`: the button (rendered only when `drawType !== "Point"`)
  invokes `handleMeasureClick`.
* `unmount`: React runs every effect cleanup — the draw-interaction
  cleanup removes the attached interaction, and the mount-effect cleanup
  calls `newMap.setTarget(undefined)` (counted by `detachCount`). -/
def step (getArea getLength : Geom → Nat) (millify : Nat → String)
    (s : ComponentState) (e : Event) : ComponentState :=
  match e with
  | Event.mount =>
      if s.mounted then s
      else runMountEffect { s with mounted := true }
  | Event.selectMode m =>
      if s.mounted then runDrawEffect { s with drawType := m }
      else s
  | Event.drawEnd d =>
      if s.mounted then
        match s.interactions.head? with
        | none => s
        | some t =>
          match geomOfType t d with
          | none => s
          | some g => { s with features := s.features ++ [g], lastFeature := some g }
      else s
  | Event.measureClick =>
      if s.mounted = true ∧ s.drawType ≠ GeometryType.Point then
        handleMeasureClick getArea getLength millify s
      else s
  | Event.unmount =>
      if s.mounted then
        { detachDraw s with mounted := false, detachCount := s.detachCount + 1 }
      else s

/-- Run a list of events from the pre-mount initial state. -/
def run (getArea getLength : Geom → Nat) (millify : Nat → String)
    (es : List Event) : ComponentState :=
  es.foldl (step getArea getLength millify) initState

/-- The options rendered by the mode `select` control, in document order:

```
<option value="LineString">LineString</option>
<option value="Point">Point</option>
<option value="Polygon">Polygon</option>
```
-/
def selectOptions : List GeometryType :=
  [GeometryType.LineString, GeometryType.Point, GeometryType.Polygon]

/-- The label of the measure button, if rendered:
`{drawType !== "Point" && <button>{drawType === "Polygon" ? "Measure Area" : "Measure Length"}</button>}`. -/
def measureButtonLabel (s : ComponentState) : Option String :=
  if s.drawType = GeometryType.Point then none
  else if s.drawType = GeometryType.Polygon then some "Measure Area"
  else some "Measure Length"

/-- The draw interactions that OUGHT to be attached in a given state: one
of the current kind when the component is mounted, the map exists and the
mode is not `"None"`; none otherwise. -/
def attachedDraws (s : ComponentState) : List GeometryType :=
  if s.mounted = true ∧ s.mapCreated = true ∧ s.drawType ≠ GeometryType.None
  then [s.drawType] else []

/-- The draw-interaction invariant: the interactions on the map are
exactly the expected ones, and the pending cleanup handle points at the
attached interaction. -/
def DrawInv (s : ComponentState) : Prop :=
  s.interactions = attachedDraws s ∧ s.currentDraw = (attachedDraws s).head?

/-- A concrete stand-in for `ol/sphere.getArea`, used to instantiate the
parameterised theorems on explicit inputs. -/
def cAreaFn : Geom → Nat := fun _ => 10

/-- A concrete stand-in for `ol/sphere.getLength`. -/
def cLenFn : Geom → Nat := fun _ => 20

/-- A concrete stand-in for `millify` (compact formatting). -/
def cFmt : Nat → String := fun _ => "1.2K"

theorem drawInv_init : DrawInv initState := by
  constructor <;> rfl

theorem detachDraw_clears (s : ComponentState) (l : List GeometryType)
    (h1 : s.interactions = l) (h2 : s.currentDraw = l.head?)
    (hl : l.length ≤ 1) :
    detachDraw s = { s with interactions := [], currentDraw := none } := by
  match l, hl with
  | [], _ =>
      unfold detachDraw
      rw [h2]
      cases s
      simp_all
  | [t], _ =>
      unfold detachDraw
      rw [h2]
      simp [List.head?, h1, List.erase]

theorem drawInv_attachCleared (s : ComponentState)
    (h1 : s.interactions = []) (h2 : s.currentDraw = none)
    (hm : s.mounted = true) : DrawInv (attachDraw s) := by
  unfold DrawInv attachDraw attachedDraws
  split_ifs with hc <;> simp_all

theorem attachedDraws_length (s : ComponentState) : (attachedDraws s).length ≤ 1 := by
  unfold attachedDraws
  split_ifs <;> simp

theorem drawInv_of_fields (s s' : ComponentState)
    (hi : s'.interactions = s.interactions) (hcd : s'.currentDraw = s.currentDraw)
    (hm : s'.mounted = s.mounted) (hmc : s'.mapCreated = s.mapCreated)
    (hdt : s'.drawType = s.drawType) (h : DrawInv s) : DrawInv s' := by
  obtain ⟨h1, h2⟩ := h
  have ha : attachedDraws s' = attachedDraws s := by
    unfold attachedDraws
    rw [hm, hmc, hdt]
  exact ⟨by rw [hi, ha, h1], by rw [hcd, ha, h2]⟩

theorem drawInv_runDrawEffect (s : ComponentState) (l : List GeometryType)
    (h1 : s.interactions = l) (h2 : s.currentDraw = l.head?)
    (hl : l.length ≤ 1) (hm : s.mounted = true) : DrawInv (runDrawEffect s) := by
  unfold runDrawEffect
  rw [detachDraw_clears s l h1 h2 hl]
  exact drawInv_attachCleared _ rfl rfl hm

theorem drawInv_step (getArea getLength : Geom → Nat) (millify : Nat → String)
    (s : ComponentState) (e : Event) (h : DrawInv s) :
    DrawInv (step getArea getLength millify s e) := by
  obtain ⟨h1, h2⟩ := h
  cases e with
  | mount =>
      rw [show step getArea getLength millify s Event.mount
          = if s.mounted = true then s
            else runMountEffect { s with mounted := true } from rfl]
      by_cases hm : s.mounted = true
      · rw [if_pos hm]
        exact ⟨h1, h2⟩
      · have hi : s.interactions = [] := by
          rw [h1]
          unfold attachedDraws
          simp [hm]
        have hcd : s.currentDraw = none := by
          rw [h2, ← h1, hi]
          rfl
        rw [if_neg hm]
        unfold runMountEffect
        exact drawInv_runDrawEffect _ [] hi hcd (by simp) rfl
  | selectMode m =>
      rw [show step getArea getLength millify s (Event.selectMode m)
          = if s.mounted = true then runDrawEffect { s with drawType := m }
            else s from rfl]
      by_cases hm : s.mounted = true
      · rw [if_pos hm]
        exact drawInv_runDrawEffect _ (attachedDraws s) h1 h2 (attachedDraws_length s) hm
      · rw [if_neg hm]
        exact ⟨h1, h2⟩
  | drawEnd d =>
      simp only [step]
      split_ifs with hm
      · cases hh : s.interactions.head? with
        | none =>
            simp only [hh]
            exact ⟨h1, h2⟩
        | some t =>
            cases hg : geomOfType t d with
            | none =>
                simp only [hh, hg]
                exact ⟨h1, h2⟩
            | some g =>
                simp only [hh, hg]
                exact drawInv_of_fields s _ rfl rfl rfl rfl rfl ⟨h1, h2⟩
      · exact ⟨h1, h2⟩
  | measureClick =>
      simp only [step]
      split_ifs with hm
      · unfold handleMeasureClick
        cases hlf : s.lastFeature with
        | none =>
            exact ⟨h1, h2⟩
        | some f =>
            exact drawInv_of_fields s _ rfl rfl rfl rfl rfl ⟨h1, h2⟩
      · exact ⟨h1, h2⟩
  | unmount =>
      simp only [step]
      split_ifs with hm
      · rw [detachDraw_clears s (attachedDraws s) h1 h2 (attachedDraws_length s)]
        exact ⟨by simp [attachedDraws], by simp [attachedDraws]⟩
      · exact ⟨h1, h2⟩

theorem drawInv_foldl (getArea getLength : Geom → Nat) (millify : Nat → String)
    (es : List Event) (s : ComponentState) (h : DrawInv s) :
    DrawInv (es.foldl (step getArea getLength millify) s) := by
  induction es generalizing s with
  | nil => exact h
  | cons e es ih =>
      exact ih _ (drawInv_step getArea getLength millify s e h)

theorem drawInv_run (getArea getLength : Geom → Nat) (millify : Nat → String)
    (es : List Event) : DrawInv (run getArea getLength millify es) :=
  drawInv_foldl getArea getLength millify es initState drawInv_init

theorem detachDraw_same (s : ComponentState) :
    (detachDraw s).features = s.features ∧ (detachDraw s).mounted = s.mounted ∧
    (detachDraw s).detachCount = s.detachCount := by
  unfold detachDraw
  split <;> exact ⟨rfl, rfl, rfl⟩

theorem attachDraw_same (s : ComponentState) :
    (attachDraw s).features = s.features ∧ (attachDraw s).mounted = s.mounted ∧
    (attachDraw s).detachCount = s.detachCount := by
  unfold attachDraw
  split_ifs <;> exact ⟨rfl, rfl, rfl⟩

theorem runDrawEffect_same (s : ComponentState) :
    (runDrawEffect s).features = s.features ∧ (runDrawEffect s).mounted = s.mounted ∧
    (runDrawEffect s).detachCount = s.detachCount := by
  unfold runDrawEffect
  refine ⟨?_, ?_, ?_⟩
  · rw [(attachDraw_same _).1, (detachDraw_same _).1]
  · rw [(attachDraw_same _).2.1, (detachDraw_same _).2.1]
  · rw [(attachDraw_same _).2.2, (detachDraw_same _).2.2]

theorem handleMeasureClick_same (getArea getLength : Geom → Nat) (millify : Nat → String)
    (s : ComponentState) :
    (handleMeasureClick getArea getLength millify s).features = s.features ∧
    (handleMeasureClick getArea getLength millify s).mounted = s.mounted ∧
    (handleMeasureClick getArea getLength millify s).detachCount = s.detachCount := by
  unfold handleMeasureClick
  split <;> exact ⟨rfl, rfl, rfl⟩

theorem features_step (getArea getLength : Geom → Nat) (millify : Nat → String)
    (s : ComponentState) (e : Event) :
    s.features <+: (step getArea getLength millify s e).features := by
  cases e with
  | mount =>
      simp only [step]
      split_ifs with hm
      · exact List.prefix_refl _
      · unfold runMountEffect
        rw [(runDrawEffect_same _).1]
  | selectMode m =>
      simp only [step]
      split_ifs with hm
      · rw [(runDrawEffect_same _).1]
      · exact List.prefix_refl _
  | drawEnd d =>
      simp only [step]
      split_ifs with hm
      · cases hh : s.interactions.head? with
        | none =>
            simp only [hh]
            exact List.prefix_refl _
        | some t =>
            simp only [hh]
            cases hg : geomOfType t d with
            | none =>
                simp only [hg]
                exact List.prefix_refl _
            | some g =>
                simp only [hg]
                exact ⟨[g], rfl⟩
      · exact List.prefix_refl _
  | measureClick =>
      simp only [step]
      split_ifs with hm
      · rw [(handleMeasureClick_same getArea getLength millify _).1]
      · exact List.prefix_refl _
  | unmount =>
      simp only [step]
      split_ifs with hm
      · show s.features <+: (detachDraw s).features
        rw [(detachDraw_same s).1]
      · exact List.prefix_refl _

theorem features_foldl (getArea getLength : Geom → Nat) (millify : Nat → String)
    (es : List Event) (s : ComponentState) :
    s.features <+: (es.foldl (step getArea getLength millify) s).features := by
  induction es generalizing s with
  | nil => exact List.prefix_refl _
  | cons e es ih =>
      exact (features_step getArea getLength millify s e).trans (ih _)

theorem stable_before_unmount (getArea getLength : Geom → Nat) (millify : Nat → String)
    (es : List Event) (s : ComponentState)
    (hu : Event.unmount ∉ es) (hm : s.mounted = true) :
    (es.foldl (step getArea getLength millify) s).mounted = true ∧
    (es.foldl (step getArea getLength millify) s).detachCount = s.detachCount := by
  induction es generalizing s with
  | nil => exact ⟨hm, rfl⟩
  | cons e es ih =>
      have he : e ≠ Event.unmount := fun h => hu (h ▸ List.mem_cons_self e es)
      have hu' : Event.unmount ∉ es := fun h => hu (List.mem_cons_of_mem e h)
      have hstep : (step getArea getLength millify s e).mounted = true ∧
          (step getArea getLength millify s e).detachCount = s.detachCount := by
        cases e with
        | mount => simp [step, hm]
        | selectMode m =>
            simp only [step, hm, if_true]
            exact ⟨(runDrawEffect_same _).2.1, (runDrawEffect_same _).2.2⟩
        | drawEnd d =>
            simp only [step, hm, if_true]
            cases hh : s.interactions.head? with
            | none =>
                simp only [hh]
                constructor <;> simp [hm]
            | some t =>
                simp only [hh]
                cases hg : geomOfType t d with
                | none =>
                    simp only [hg]
                    constructor <;> simp [hm]
                | some g =>
                    simp only [hg]
                    constructor <;> simp [hm]
        | measureClick =>
            simp only [step]
            split_ifs with hmc
            · exact ⟨((handleMeasureClick_same getArea getLength millify _).2.1).trans hm,
                (handleMeasureClick_same getArea getLength millify _).2.2⟩
            · exact ⟨hm, rfl⟩
        | unmount => exact absurd rfl he
      obtain ⟨ha, hb⟩ := ih (step getArea getLength millify s e) hu' hstep.1
      exact ⟨ha, hb.trans hstep.2⟩

theorem lengthText_ne_areaText (x y : String) :
    "Length: " ++ x ++ " meters" ≠ "Area: " ++ y := by
  intro h
  have hd := congrArg String.data h
  simp only [String.data_append] at hd
  simp at hd

/-- C1 (counterexample): with a previously displayed length text and a
last-drawn Point feature, invoking measure does NOT leave the
measurement text as it was — `setMeasurement(output)` runs with the
untouched `output = ""`, clearing the text. -/
theorem measure_point_keeps_text_cex :
    (run cAreaFn cLenFn cFmt
        [Event.mount, Event.drawEnd 5, Event.measureClick,
         Event.selectMode GeometryType.Point, Event.drawEnd 7,
         Event.selectMode GeometryType.LineString]).lastFeature
      = some (Geom.point 7) ∧
    (run cAreaFn cLenFn cFmt
        [Event.mount, Event.drawEnd 5, Event.measureClick,
         Event.selectMode GeometryType.Point, Event.drawEnd 7,
         Event.selectMode GeometryType.LineString]).measurement
      = "Length: 1.2K meters" ∧
    (run cAreaFn cLenFn cFmt
        [Event.mount, Event.drawEnd 5, Event.measureClick,
         Event.selectMode GeometryType.Point, Event.drawEnd 7,
         Event.selectMode GeometryType.LineString, Event.measureClick]).measurement
      = "" ∧
    (run cAreaFn cLenFn cFmt
        [Event.mount, Event.drawEnd 5, Event.measureClick,
         Event.selectMode GeometryType.Point, Event.drawEnd 7,
         Event.selectMode GeometryType.LineString, Event.measureClick]).measurement
      ≠ (run cAreaFn cLenFn cFmt
        [Event.mount, Event.drawEnd 5, Event.measureClick,
         Event.selectMode GeometryType.Point, Event.drawEnd 7,
         Event.selectMode GeometryType.LineString]).measurement := by
  refine ⟨rfl, rfl, rfl, ?_⟩
  decide

/-- C1 (amended): for every state whose last-drawn feature's geometry is
a Point, invoking the measure action sets the measurement text to the
empty string (so neither "Length" nor "Area" text appears, and any
previously displayed measurement text is cleared); no other state field
changes. -/
theorem measure_point_clears_measurement (getArea getLength : Geom → Nat)
    (millify : Nat → String) (s : ComponentState) (d : Nat)
    (h : s.lastFeature = some (Geom.point d)) :
    handleMeasureClick getArea getLength millify s = { s with measurement := "" } := by
  unfold handleMeasureClick
  rw [h]

theorem measure_point_clears_measurement_witness :
    handleMeasureClick cAreaFn cLenFn cFmt
        { initState with lastFeature := some (Geom.point 3), measurement := "old" }
      = { initState with lastFeature := some (Geom.point 3), measurement := "" } :=
  measure_point_clears_measurement cAreaFn cLenFn cFmt
    { initState with lastFeature := some (Geom.point 3), measurement := "old" } 3 rfl

/-- C2: for every state whose last-drawn feature's geometry is a
Polygon, invoking the measure action sets the measurement text to
exactly "Area: \x7bX\x7d square meters" where X is the millify formatting of
the spherical area `getArea` of that geometry. -/
theorem measure_polygon_area_text (getArea getLength : Geom → Nat)
    (millify : Nat → String) (s : ComponentState) (d : Nat)
    (h : s.lastFeature = some (Geom.polygon d)) :
    (handleMeasureClick getArea getLength millify s).measurement
      = "Area: " ++ millify (getArea (Geom.polygon d)) ++ " square meters" := by
  unfold handleMeasureClick
  rw [h]

theorem measure_polygon_area_text_witness :
    (handleMeasureClick cAreaFn cLenFn cFmt
        { initState with lastFeature := some (Geom.polygon 4) }).measurement
      = "Area: 1.2K square meters" :=
  measure_polygon_area_text cAreaFn cLenFn cFmt
    { initState with lastFeature := some (Geom.polygon 4) } 4 rfl

/-- C3: with a LineString draw interaction attached, the draw-end event
sets the last-drawn feature to that line geometry; invoking measure on
the resulting state yields exactly "Length: \x7bX\x7d meters" with X the
millify formatting of the spherical length `getLength`, and the produced
text is not an "Area: ..." text. -/
theorem linestring_drawend_then_measure (getArea getLength : Geom → Nat)
    (millify : Nat → String) (s : ComponentState) (d : Nat)
    (hm : s.mounted = true)
    (hi : s.interactions.head? = some GeometryType.LineString) :
    (step getArea getLength millify s (Event.drawEnd d)).lastFeature
      = some (Geom.lineString d) ∧
    (handleMeasureClick getArea getLength millify
        (step getArea getLength millify s (Event.drawEnd d))).measurement
      = "Length: " ++ millify (getLength (Geom.lineString d)) ++ " meters" ∧
    ∀ y : String,
      (handleMeasureClick getArea getLength millify
          (step getArea getLength millify s (Event.drawEnd d))).measurement
        ≠ "Area: " ++ y := by
  have hstep : step getArea getLength millify s (Event.drawEnd d)
      = { s with features := s.features ++ [Geom.lineString d],
                 lastFeature := some (Geom.lineString d) } := by
    simp only [step, hm, if_true, hi]
    rfl
  have hmeas : (handleMeasureClick getArea getLength millify
      (step getArea getLength millify s (Event.drawEnd d))).measurement
      = "Length: " ++ millify (getLength (Geom.lineString d)) ++ " meters" := by
    rw [hstep]
    rfl
  exact ⟨by rw [hstep], hmeas,
    fun y hy => lengthText_ne_areaText _ y (hmeas.symm.trans hy)⟩

theorem linestring_drawend_then_measure_witness :
    (step cAreaFn cLenFn cFmt (run cAreaFn cLenFn cFmt [Event.mount])
        (Event.drawEnd 5)).lastFeature = some (Geom.lineString 5) ∧
    (handleMeasureClick cAreaFn cLenFn cFmt
        (step cAreaFn cLenFn cFmt (run cAreaFn cLenFn cFmt [Event.mount])
          (Event.drawEnd 5))).measurement = "Length: 1.2K meters" ∧
    (handleMeasureClick cAreaFn cLenFn cFmt
        (step cAreaFn cLenFn cFmt (run cAreaFn cLenFn cFmt [Event.mount])
          (Event.drawEnd 5))).measurement ≠ "Area: " ++ "1.2K meters" :=
  have h := linestring_drawend_then_measure cAreaFn cLenFn cFmt
    (run cAreaFn cLenFn cFmt [Event.mount]) 5 rfl rfl
  ⟨h.1, h.2.1, h.2.2 "1.2K meters"⟩

/-- C4: invoking the measure action in a state where no feature has ever
been drawn (`lastFeature = none`) is a silent no-op: the whole component
state is unchanged. -/
theorem measure_without_feature_noop (getArea getLength : Geom → Nat)
    (millify : Nat → String) (s : ComponentState) (h : s.lastFeature = none) :
    handleMeasureClick getArea getLength millify s = s := by
  unfold handleMeasureClick
  rw [h]

theorem measure_without_feature_noop_witness :
    handleMeasureClick cAreaFn cLenFn cFmt initState = initState :=
  measure_without_feature_noop cAreaFn cLenFn cFmt initState rfl

/-- C5: in every reachable state, at most one draw interaction is
attached to the map and its configured geometry kind equals the current
drawing mode; when the mode is "None" or the map does not exist, zero
draw interactions are attached; and every mode change runs the cleanup
(detaching the previous interaction, leaving zero attached) before the
new effect body attaches at most one new interaction. -/
theorem draw_interaction_invariant (getArea getLength : Geom → Nat)
    (millify : Nat → String) (es : List Event) :
    (run getArea getLength millify es).interactions.length ≤ 1 ∧
    (∀ t ∈ (run getArea getLength millify es).interactions,
        t = (run getArea getLength millify es).drawType) ∧
    ((run getArea getLength millify es).drawType = GeometryType.None ∨
        (run getArea getLength millify es).mapCreated = false →
      (run getArea getLength millify es).interactions = []) ∧
    (∀ m : GeometryType, (run getArea getLength millify es).mounted = true →
      step getArea getLength millify (run getArea getLength millify es)
          (Event.selectMode m)
        = attachDraw (detachDraw
            { run getArea getLength millify es with drawType := m }) ∧
      (detachDraw
          { run getArea getLength millify es with drawType := m }).interactions
        = []) := by
  obtain ⟨h1, h2⟩ := drawInv_run getArea getLength millify es
  refine ⟨?_, ?_, ?_, ?_⟩
  · rw [h1]
    exact attachedDraws_length _
  · intro t ht
    rw [h1] at ht
    revert ht
    unfold attachedDraws
    split_ifs with hc
    · intro ht
      simpa using ht
    · intro ht
      simp at ht
  · intro hor
    rw [h1]
    unfold attachedDraws
    split_ifs with hc
    · exfalso
      obtain ⟨hmn, hmc, hne⟩ := hc
      cases hor with
      | inl h => exact hne h
      | inr h => simp [h] at hmc
    · rfl
  · intro m hm
    constructor
    · rw [show step getArea getLength millify (run getArea getLength millify es)
          (Event.selectMode m)
          = if (run getArea getLength millify es).mounted = true
            then runDrawEffect
              { run getArea getLength millify es with drawType := m }
            else run getArea getLength millify es from rfl, if_pos hm]
      rfl
    · rw [detachDraw_clears
        { run getArea getLength millify es with drawType := m }
        (attachedDraws (run getArea getLength millify es)) h1 h2
        (attachedDraws_length _)]

theorem draw_interaction_invariant_witness :
    (run cAreaFn cLenFn cFmt [Event.mount]).interactions.length ≤ 1 ∧
    (run cAreaFn cLenFn cFmt
        [Event.mount, Event.selectMode GeometryType.None]).interactions = [] ∧
    (detachDraw { run cAreaFn cLenFn cFmt [Event.mount] with
        drawType := GeometryType.Polygon }).interactions = [] := by
  refine ⟨(draw_interaction_invariant cAreaFn cLenFn cFmt [Event.mount]).1, ?_, ?_⟩
  · exact (draw_interaction_invariant cAreaFn cLenFn cFmt
      [Event.mount, Event.selectMode GeometryType.None]).2.2.1 (Or.inl rfl)
  · exact ((draw_interaction_invariant cAreaFn cLenFn cFmt [Event.mount]).2.2.2
      GeometryType.Polygon rfl).2

/-- C6: immediately after mount, before any user interaction, the
drawing mode is LineString, the view is centered at
[-11000000, 4600000] with zoom 4, the map's layers are the tile basemap
and the vector layer, no feature has been drawn, and the measurement
text is empty. -/
theorem initial_state_after_mount (getArea getLength : Geom → Nat)
    (millify : Nat → String) :
    (run getArea getLength millify [Event.mount]).drawType
      = GeometryType.LineString ∧
    (run getArea getLength millify [Event.mount]).view
      = some { center := (-11000000, 4600000), zoom := 4 } ∧
    (run getArea getLength millify [Event.mount]).layers
      = [Layer.tile, Layer.vector] ∧
    (run getArea getLength millify [Event.mount]).lastFeature = none ∧
    (run getArea getLength millify [Event.mount]).measurement = "" :=
  ⟨rfl, rfl, rfl, rfl, rfl⟩

/-- C7 (counterexample): the select control does NOT expose all four
drawing modes — the "None" mode is not among its rendered options. -/
theorem select_options_no_none_cex :
    GeometryType.None ∉ selectOptions ∧
    ¬ ∀ t : GeometryType, t ∈ selectOptions :=
  ⟨by decide, fun h => absurd (h GeometryType.None) (by decide)⟩

/-- C7 (amended): the select control exposes exactly the three drawing
modes LineString, Point and Polygon (in that document order); every mode
other than "None" is reachable via explicit user selection, but "None"
is not a selectable option. -/
theorem select_options_three_modes :
    selectOptions
      = [GeometryType.LineString, GeometryType.Point, GeometryType.Polygon] ∧
    GeometryType.None ∉ selectOptions ∧
    ∀ t : GeometryType, t ≠ GeometryType.None → t ∈ selectOptions := by
  refine ⟨rfl, by decide, ?_⟩
  intro t ht
  cases t <;> first | exact absurd rfl ht | decide

theorem select_options_three_modes_witness :
    GeometryType.Polygon ∈ selectOptions :=
  select_options_three_modes.2.2 GeometryType.Polygon (by decide)

/-- C8: the drawing source is never cleared — after any further events,
the source's feature list still starts with every feature it already
held (features only accumulate, across mode switches and everything
else, for the component's lifetime). -/
theorem features_never_removed (getArea getLength : Geom → Nat)
    (millify : Nat → String) (es more : List Event) :
    (run getArea getLength millify es).features
      <+: (run getArea getLength millify (es ++ more)).features := by
  unfold run
  rw [List.foldl_append]
  exact features_foldl getArea getLength millify more _

/-- C9: the text produced by the measure action does not depend on the
current drawing mode — changing only `drawType` never changes the
produced measurement; any two states with the same (present) last-drawn
feature produce the same text; and in particular with mode Polygon (the
button then reads "Measure Area") but a last-drawn LineString feature,
measuring produces "Length: ..." text. -/
theorem measurement_mode_independent (getArea getLength : Geom → Nat)
    (millify : Nat → String) (s : ComponentState) :
    (∀ m : GeometryType,
      (handleMeasureClick getArea getLength millify
          { s with drawType := m }).measurement
        = (handleMeasureClick getArea getLength millify s).measurement) ∧
    (∀ s₁ s₂ : ComponentState, ∀ f : Geom,
      s₁.lastFeature = some f → s₂.lastFeature = some f →
      (handleMeasureClick getArea getLength millify s₁).measurement
        = (handleMeasureClick getArea getLength millify s₂).measurement) ∧
    (s.drawType = GeometryType.Polygon →
      measureButtonLabel s = some "Measure Area") ∧
    (∀ d : Nat, s.lastFeature = some (Geom.lineString d) →
      (handleMeasureClick getArea getLength millify s).measurement
        = "Length: " ++ millify (getLength (Geom.lineString d)) ++ " meters") := by
  refine ⟨?_, ?_, ?_, ?_⟩
  · intro m
    unfold handleMeasureClick
    cases s.lastFeature <;> rfl
  · intro s₁ s₂ f hf₁ hf₂
    unfold handleMeasureClick
    rw [hf₁, hf₂]
  · intro h
    unfold measureButtonLabel
    simp [h]
  · intro d hd
    unfold handleMeasureClick
    rw [hd]

theorem measurement_mode_independent_witness :
    measureButtonLabel { initState with drawType := GeometryType.Polygon, lastFeature := some (Geom.lineString 6) } = some "Measure Area" ∧
    (handleMeasureClick cAreaFn cLenFn cFmt { initState with drawType := GeometryType.Polygon, lastFeature := some (Geom.lineString 6) }).measurement
      = "Length: 1.2K meters" :=
  have h := measurement_mode_independent cAreaFn cLenFn cFmt
    { initState with drawType := GeometryType.Polygon, lastFeature := some (Geom.lineString 6) }
  ⟨h.2.2.1 rfl, h.2.2.2 6 rfl⟩

theorem step_unmount_detachCount (getArea getLength : Geom → Nat)
    (millify : Nat → String) (s : ComponentState) (hm : s.mounted = true) :
    (step getArea getLength millify s Event.unmount).detachCount
      = s.detachCount + 1 := by
  simp only [step, hm, if_true]

/-- C10: for every mount and every sequence of events without an unmount
in between (however many mode switches it contains), the map has not yet
been detached from its container, and processing the unmount detaches it
exactly once (`setTarget(undefined)` has then run exactly one time). -/
theorem unmount_detaches_once (getArea getLength : Geom → Nat)
    (millify : Nat → String) (es : List Event) (hu : Event.unmount ∉ es) :
    (run getArea getLength millify (Event.mount :: es)).detachCount = 0 ∧
    (run getArea getLength millify
        ((Event.mount :: es) ++ [Event.unmount])).detachCount = 1 := by
  have hstable := stable_before_unmount getArea getLength millify es
    (step getArea getLength millify initState Event.mount) hu rfl
  have h0 : (run getArea getLength millify (Event.mount :: es)).detachCount = 0 := by
    show (es.foldl (step getArea getLength millify)
        (step getArea getLength millify initState Event.mount)).detachCount = 0
    rw [hstable.2]
    rfl
  refine ⟨h0, ?_⟩
  rw [show run getArea getLength millify ((Event.mount :: es) ++ [Event.unmount])
      = step getArea getLength millify
          (run getArea getLength millify (Event.mount :: es)) Event.unmount from by
    unfold run
    rw [List.foldl_append]
    rfl]
  show (step getArea getLength millify
      (es.foldl (step getArea getLength millify)
        (step getArea getLength millify initState Event.mount))
      Event.unmount).detachCount = 1
  rw [step_unmount_detachCount getArea getLength millify _ hstable.1, hstable.2]
  rfl

theorem unmount_detaches_once_witness :
    (run cAreaFn cLenFn cFmt
        [Event.mount, Event.selectMode GeometryType.Polygon]).detachCount = 0 ∧
    (run cAreaFn cLenFn cFmt
        [Event.mount, Event.selectMode GeometryType.Polygon,
         Event.unmount]).detachCount = 1 :=
  unmount_detaches_once cAreaFn cLenFn cFmt
    [Event.selectMode GeometryType.Polygon] (by decide)
